import Mathlib

set_option maxRecDepth 4000

/-!
Shallow embedding of the tqsim repository (Constantine-Quantum-Tech/tqsim):
Fibonacci-anyon basis generation (src/tqsim/lib/basis_generator.py),
braiding-operator generation (src/tqsim/lib/operator_generator.py) and the
circuit state machine (src/tqsim/circuit.py, src/cqt_anyons/circuit.py).

Numeric model.  The Python code computes with complex floats whose exact
values all lie in the field Q(zeta)(s) where zeta = exp(i*pi/5) is a
primitive 10th root of unity and s = sqrt((sqrt 5 - 1)/2).  We embed the
arithmetic exactly in that field, represented as K below; complex
conjugation is the star operation.  Relations used by the representation:
  zeta^4 = zeta^3 - zeta^2 + zeta - 1   (10th cyclotomic polynomial)
  s^2    = zeta^2 - zeta^3 = (sqrt 5 - 1)/2   (the code's inv_phi)
and the code's constants are
  inv_phi            = (sqrt 5 - 1)/2  = zeta^2 - zeta^3
  sqrt(inv_phi)      = s
  exp(-4*pi*i/5)     = zeta^6 = -zeta
  exp( 3*pi*i/5)     = zeta^3.
Exact equalities proved over K entail the float-tolerance statements of the
specification (an exact zero is within every tolerance).

Rational coefficients are kept as unnormalized fractions (integer numerator,
natural denominator) so that every operation reduces inside the kernel;
value equality is the cross-multiplication test Frac.beq.  All denominators
produced by the embedding are positive: constructors below and all
operations preserve positivity of the denominator.
-/

/-- An unnormalized rational number: num / den, with den intended positive.
All fraction literals in this file have positive denominators and the
arithmetic preserves that. -/
structure Frac where
  num : Int
  den : Nat
deriving DecidableEq

instance : Zero Frac := ⟨⟨0, 1⟩⟩

instance : One Frac := ⟨⟨1, 1⟩⟩

instance : Neg Frac := ⟨fun x => ⟨-x.num, x.den⟩⟩

instance : Add Frac := ⟨fun x y => ⟨x.num * (y.den : Int) + y.num * (x.den : Int), x.den * y.den⟩⟩

instance : Mul Frac := ⟨fun x y => ⟨x.num * y.num, x.den * y.den⟩⟩

instance : Sub Frac := ⟨fun x y => x + (-y)⟩

/-- Value equality of unnormalized fractions (cross multiplication). -/
def Frac.beq (x y : Frac) : Bool := x.num * (y.den : Int) == y.num * (x.den : Int)

/-- Value ordering of unnormalized fractions (valid for positive denominators). -/
def Frac.ble (x y : Frac) : Bool := x.num * (y.den : Int) ≤ y.num * (x.den : Int)

/-- An element a0 + a1*z + a2*z^2 + a3*z^3 of Q[z]/(z^4 - z^3 + z^2 - z + 1),
the 10th cyclotomic field with z = exp(i*pi/5). -/
structure P4 where
  a0 : Frac
  a1 : Frac
  a2 : Frac
  a3 : Frac
deriving DecidableEq

def P4.zero : P4 := ⟨0, 0, 0, 0⟩

def P4.one : P4 := ⟨1, 0, 0, 0⟩

def P4.add (x y : P4) : P4 := ⟨x.a0 + y.a0, x.a1 + y.a1, x.a2 + y.a2, x.a3 + y.a3⟩

def P4.neg (x : P4) : P4 := ⟨-x.a0, -x.a1, -x.a2, -x.a3⟩

/-- Polynomial product reduced by z^4 = -1 + z - z^2 + z^3, z^5 = -1, z^6 = -z. -/
def P4.mul (x y : P4) : P4 :=
  let c0 := x.a0 * y.a0
  let c1 := x.a0 * y.a1 + x.a1 * y.a0
  let c2 := x.a0 * y.a2 + x.a1 * y.a1 + x.a2 * y.a0
  let c3 := x.a0 * y.a3 + x.a1 * y.a2 + x.a2 * y.a1 + x.a3 * y.a0
  let c4 := x.a1 * y.a3 + x.a2 * y.a2 + x.a3 * y.a1
  let c5 := x.a2 * y.a3 + x.a3 * y.a2
  let c6 := x.a3 * y.a3
  ⟨c0 - c4 - c5, c1 + c4 - c6, c2 - c4, c3 + c4⟩

/-- Complex conjugation: z maps to z^9 = 1 - z + z^2 - z^3 (and z^2 to -z^3,
z^3 to -z^2). -/
def P4.star (x : P4) : P4 :=
  ⟨x.a0 + x.a1, -x.a1, x.a1 - x.a3, -x.a1 - x.a2⟩

/-- Value equality on P4 (coefficientwise). -/
def P4.beq (x y : P4) : Bool :=
  Frac.beq x.a0 y.a0 && Frac.beq x.a1 y.a1 && Frac.beq x.a2 y.a2 && Frac.beq x.a3 y.a3

/-- The scalar field of the embedding: u + s * v with u, v in the 10th
cyclotomic field and s = sqrt((sqrt 5 - 1)/2), so s^2 = z^2 - z^3. -/
structure K where
  u : P4
  v : P4
deriving DecidableEq

instance : Zero K := ⟨⟨P4.zero, P4.zero⟩⟩

instance : One K := ⟨⟨P4.one, P4.zero⟩⟩

instance : Add K := ⟨fun x y => ⟨x.u.add y.u, x.v.add y.v⟩⟩

instance : Neg K := ⟨fun x => ⟨x.u.neg, x.v.neg⟩⟩

instance : Sub K := ⟨fun x y => ⟨x.u.add y.u.neg, x.v.add y.v.neg⟩⟩

/-- s^2 = z^2 - z^3 folds the s-part product back into the cyclotomic part. -/
instance : Mul K :=
  ⟨fun x y =>
    ⟨(x.u.mul y.u).add ((x.v.mul y.v).mul ⟨0, 0, 1, -1⟩),
     (x.u.mul y.v).add (x.v.mul y.u)⟩⟩

instance : Star K := ⟨fun x => ⟨x.u.star, x.v.star⟩⟩

/-- Value equality on K. -/
def Keq (x y : K) : Bool := P4.beq x.u y.u && P4.beq x.v y.v

/-- Rational scalars inside K. -/
def Kq (q : Frac) : K := ⟨⟨q, 0, 0, 0⟩, P4.zero⟩

/-- inv_phi = (sqrt 5 - 1)/2 (the code's `inv_phi`), equal to z^2 - z^3. -/
def invPhi : K := ⟨⟨0, 0, 1, -1⟩, P4.zero⟩

/-- sqrt(inv_phi) (the code's `np.sqrt(inv_phi)`). -/
def sqrtInvPhi : K := ⟨P4.zero, P4.one⟩

/-- zeta = exp(i*pi/5). -/
def zetaK : K := ⟨⟨0, 1, 0, 0⟩, P4.zero⟩

/-- exp(-4*pi*i/5) = zeta^6 = -zeta (the first R-matrix phase). -/
def expR1 : K := -zetaK

/-- exp(3*pi*i/5) = zeta^3 (the second R-matrix phase). -/
def expR2 : K := ⟨⟨0, 0, 0, 1⟩, P4.zero⟩

example : Keq (sqrtInvPhi * sqrtInvPhi) invPhi = true := by decide

example : Keq (invPhi * invPhi + invPhi) 1 = true := by decide

example : Keq (expR1 * star expR1) 1 = true := by decide

example : Keq (expR2 * star expR2) 1 = true := by decide

example : Keq (zetaK * zetaK * zetaK * zetaK * zetaK) (-1) = true := by decide

example : star (star zetaK) = zetaK := by decide

example : Keq (star zetaK * zetaK) 1 = true := by decide

/-!
## Basis generation (src/tqsim/lib/basis_generator.py)

Basis states are Python dicts {"qudits": list of list of int, "roots": list
of int}; labels are the ints 0 and 1.  Python truthiness of a label is
"label is nonzero".  List reads that the source performs only on provably
in-range indices are embedded with a default value (getD / getLastD); each
such site is annotated.
-/

/-- A basis state: the dict {"qudits": ..., "roots": ...}. -/
structure PyState where
  qudits : List (List Nat)
  roots : List Nat
deriving DecidableEq

/-- Python list[-1] (callers only apply it to nonempty lists; on an empty
list the source would raise, the default 0 is never used in reachable
calls). -/
def pyLast (l : List Nat) : Nat := l.getLastD 0

/-- check_rule: the Fibonacci fusion rule test, with Python int truthiness. -/
def check_rule (anyon1 anyon2 outcome : Nat) : Bool :=
  if anyon1 ≠ 0 && anyon2 ≠ 0 then true
  else if (anyon1 ≠ 0 || anyon2 ≠ 0) && outcome == 1 then true
  else if !(anyon1 ≠ 0 || anyon2 ≠ 0) && outcome == 0 then true
  else false

/-- The loop of check_outcomes, carrying previous_outcome. -/
def check_outcomes_from (prev : Nat) : List Nat → Bool
  | [] => true
  | o :: rest => if check_rule prev 1 o then check_outcomes_from o rest else false

/-- check_outcomes: previous_outcome starts at 1. -/
def check_outcomes (outcomes : List Nat) : Bool := check_outcomes_from 1 outcomes

/-- First loop of check_state: each qudit has the length of qudit 0 and
passes check_outcomes. -/
def check_qudits (qlen : Nat) : List (List Nat) → Bool
  | [] => true
  | q :: rest =>
      if q.length = qlen then
        (if check_outcomes q then check_qudits qlen rest else false)
      else false

/-- Second loop of check_state: fuse the running outcome with the final
label of qudit i+1 into roots[i].  The source reads state["qudits"][i+1][-1];
within check_state the index i+1 is in range because the roots/qudits length
relation was checked just before the loop. -/
def check_roots_chain (qudits : List (List Nat)) : List Nat → Nat → Nat → Bool
  | [], _, _ => true
  | outcome :: rest, i, prev =>
      if check_rule prev (pyLast (qudits.getD (i + 1) [])) outcome then
        check_roots_chain qudits rest (i + 1) outcome
      else false

/-- check_state (src/tqsim/lib/basis_generator.py lines 58-79).  The source
reads state["qudits"][0]; for the empty qudit list it would raise, getD
returns [] (unreachable for nb_qudits >= 1). -/
def check_state (state : PyState) : Bool :=
  let nb_qudits := state.qudits.length
  let qudit_len := (state.qudits.getD 0 []).length
  if check_qudits qudit_len state.qudits = false then false
  else if nb_qudits ≠ state.roots.length + 1 then false
  else check_roots_chain state.qudits state.roots 0 (pyLast (state.qudits.getD 0 []))

/-- state["qudits"][-1].append(label): append to the last qudit.  The source
raises on an empty qudit list; that branch is unreachable in gen_state for
qudit_len >= 1 (the first label always opens a qudit first). -/
def pyAppendLast (qs : List (List Nat)) (x : Nat) : List (List Nat) :=
  match qs with
  | [] => []
  | [q] => [q ++ [x]]
  | q :: rest => q :: pyAppendLast rest x

/-- The enumerate loop of gen_state: i is the running index. -/
def gen_state_aux : List Nat → Nat → Nat → Nat → PyState → PyState
  | [], _, _, _, st => st
  | l :: ls, i, nq, qlen, st =>
      gen_state_aux ls (i + 1) nq qlen
        (if i < nq * qlen then
          (if i % qlen ≠ 0 then { st with qudits := pyAppendLast st.qudits l }
           else { st with qudits := st.qudits ++ [[l]] })
         else { st with roots := st.roots ++ [l] })

/-- gen_state (src/tqsim/lib/basis_generator.py lines 82-94). -/
def gen_state (comb : List Nat) (nb_qudits qudit_len : Nat) : PyState :=
  gen_state_aux comb 0 nb_qudits qudit_len ⟨[], []⟩

/-- One step of the binary-counter increment in generate_basis: flip leading
1s to 0 until the first 0, which becomes 1 (the for/break loop). -/
def next_comb : List Nat → List Nat
  | [] => []
  | 0 :: rest => 1 :: rest
  | _ :: rest => 0 :: next_comb rest

/-- The while loop of generate_basis.  The loop in the source terminates
when the counter reaches final = all ones after exactly 2^nb_labels - 1
iterations; the fuel argument is 2^nb_labels, which is sufficient, so the
fuel-exhaustion branch is unreachable. -/
def basis_loop (nq qlen : Nat) (final : List Nat) : Nat → List Nat → List PyState → List PyState
  | 0, _, acc => acc
  | fuel + 1, curr, acc =>
      if curr = final then acc
      else
        let c := next_comb curr
        let st := gen_state c nq qlen
        basis_loop nq qlen final fuel c (if check_state st then acc ++ [st] else acc)

/-- generate_basis (src/tqsim/lib/basis_generator.py lines 97-140). -/
def generate_basis (nb_qudits nb_anyons_per_qudit : Nat) : List PyState :=
  let nb_roots := nb_qudits - 1
  let qudit_len := nb_anyons_per_qudit - 1
  let nb_labels := nb_qudits * qudit_len + nb_roots
  let init := List.replicate nb_labels 0
  let final := List.replicate nb_labels 1
  let st0 := gen_state init nb_qudits qudit_len
  let acc0 := if check_state st0 then [st0] else []
  basis_loop nb_qudits qudit_len final (2 ^ nb_labels) init acc0

example : (generate_basis 1 3).length = 3 := by decide

example : (generate_basis 1 4).length = 5 := by decide

example : (generate_basis 2 2).length = 5 := by decide

example : generate_basis 1 3 = [⟨[[1, 0]], []⟩, ⟨[[0, 1]], []⟩, ⟨[[1, 1]], []⟩] := by decide

/-! ### Lemmas about the basis generator -/

theorem next_comb_length (l : List Nat) : (next_comb l).length = l.length := by
  induction l with
  | nil => rfl
  | cons h t ih => cases h <;> simp [next_comb, ih]

theorem pyAppendLast_snoc (a : Nat) :
    ∀ (qs : List (List Nat)) (cur : List Nat),
      pyAppendLast (qs ++ [cur]) a = qs ++ [cur ++ [a]] := by
  intro qs
  induction qs with
  | nil => intro cur; rfl
  | cons q qs ih =>
      intro cur
      cases qs with
      | nil => rfl
      | cons q2 t =>
          have h1 : pyAppendLast ((q :: q2 :: t) ++ [cur]) a
              = q :: pyAppendLast ((q2 :: t) ++ [cur]) a := rfl
          rw [h1, ih cur]
          rfl

theorem basis_loop_mem (nq qlen nbl : Nat) (final : List Nat) :
    ∀ (fuel : Nat) (curr : List Nat) (acc : List PyState),
      curr.length = nbl →
      (∀ s ∈ acc, check_state s = true ∧
        ∃ comb : List Nat, comb.length = nbl ∧ s = gen_state comb nq qlen) →
      ∀ s ∈ basis_loop nq qlen final fuel curr acc,
        check_state s = true ∧
        ∃ comb : List Nat, comb.length = nbl ∧ s = gen_state comb nq qlen := by
  intro fuel
  induction fuel with
  | zero => intro curr acc _ hacc s hs; exact hacc s hs
  | succ n ih =>
      intro curr acc hc hacc s hs
      rw [basis_loop] at hs
      split at hs
      · exact hacc s hs
      · refine ih (next_comb curr) _ (by rw [next_comb_length]; exact hc) ?_ s hs
        intro t ht
        split at ht
        case isTrue hck =>
          rcases List.mem_append.mp ht with h1 | h2
          · exact hacc t h1
          · have ht2 : t = gen_state (next_comb curr) nq qlen := by simpa using h2
            refine ⟨by rw [ht2]; exact hck, next_comb curr, ?_, ht2⟩
            rw [next_comb_length]; exact hc
        case isFalse => exact hacc t ht

theorem generate_basis_mem (nq apq : Nat) (s : PyState)
    (hs : s ∈ generate_basis nq apq) :
    check_state s = true ∧
    ∃ comb : List Nat, comb.length = nq * (apq - 1) + (nq - 1) ∧
      s = gen_state comb nq (apq - 1) := by
  rw [generate_basis] at hs
  refine basis_loop_mem nq (apq - 1) (nq * (apq - 1) + (nq - 1)) _ _ _ _ (by simp) ?_ s hs
  intro t ht
  split at ht
  case isTrue hck =>
    have ht2 : t = gen_state (List.replicate (nq * (apq - 1) + (nq - 1)) 0) nq (apq - 1) := by
      simpa using ht
    exact ⟨by rw [ht2]; exact hck, _, by simp, ht2⟩
  case isFalse => simp at ht

theorem gen_state_aux_append (xs : List Nat) :
    ∀ (ys : List Nat) (i nq qlen : Nat) (st : PyState),
      gen_state_aux (xs ++ ys) i nq qlen st =
        gen_state_aux ys (i + xs.length) nq qlen (gen_state_aux xs i nq qlen st) := by
  induction xs with
  | nil => intro ys i nq qlen st; simp [gen_state_aux]
  | cons x t ih =>
      intro ys i nq qlen st
      have h1 : i + (x :: t).length = (i + 1) + t.length := by
        simp; omega
      rw [List.cons_append, gen_state_aux, gen_state_aux, ih, h1]

theorem gen_state_aux_roots (ls : List Nat) :
    ∀ (i nq qlen : Nat) (st : PyState), nq * qlen ≤ i →
      gen_state_aux ls i nq qlen st = ⟨st.qudits, st.roots ++ ls⟩ := by
  induction ls with
  | nil => intro i nq qlen st _; cases st; simp [gen_state_aux]
  | cons l t ih =>
      intro i nq qlen st h
      rw [gen_state_aux, if_neg (by omega)]
      rw [ih (i + 1) nq qlen _ (by omega)]
      simp

theorem gen_state_aux_inblock (k nq qlen : Nat) (hk : k < nq) :
    ∀ (t : List Nat) (j : Nat) (cur : List Nat) (qs : List (List Nat)) (r : List Nat),
      1 ≤ j → j + t.length ≤ qlen →
      gen_state_aux t (k * qlen + j) nq qlen ⟨qs ++ [cur], r⟩ = ⟨qs ++ [cur ++ t], r⟩ := by
  intro t
  induction t with
  | nil => intro j cur qs r _ _; simp [gen_state_aux]
  | cons a t ih =>
      intro j cur qs r h1 h2
      have hlen : j + (t.length + 1) ≤ qlen := by simpa using h2
      have hj : j < qlen := by omega
      have hi : k * qlen + j < nq * qlen := by
        have hk1 : k + 1 ≤ nq := hk
        calc k * qlen + j < k * qlen + qlen := by omega
          _ = (k + 1) * qlen := by ring
          _ ≤ nq * qlen := Nat.mul_le_mul_right qlen hk1
      have hmod : (k * qlen + j) % qlen = j := by
        rw [Nat.add_comm, Nat.add_mul_mod_self_right, Nat.mod_eq_of_lt hj]
      rw [gen_state_aux, if_pos hi, if_pos (by rw [hmod]; omega)]
      have happ : pyAppendLast (qs ++ [cur]) a = qs ++ [cur ++ [a]] := pyAppendLast_snoc a qs cur
      have hst : ({ qudits := qs ++ [cur], roots := r } : PyState).qudits = qs ++ [cur] := rfl
      simp only [hst, happ]
      have := ih (j + 1) (cur ++ [a]) qs r (by omega) (by omega)
      have hidx : k * qlen + j + 1 = k * qlen + (j + 1) := by omega
      rw [hidx, this]
      simp

theorem gen_state_aux_block (k nq qlen : Nat) (hk : k < nq) (hq : 0 < qlen) :
    ∀ (q : List Nat) (st : PyState), q.length = qlen →
      gen_state_aux q (k * qlen) nq qlen st = ⟨st.qudits ++ [q], st.roots⟩ := by
  intro q st hlen
  cases q with
  | nil => simp at hlen; omega
  | cons x t =>
      have hi : k * qlen < nq * qlen := Nat.mul_lt_mul_of_lt_of_le hk (le_refl qlen) hq
      have hmod : k * qlen % qlen = 0 := Nat.mul_mod_left k qlen
      rw [gen_state_aux, if_pos hi, if_neg (by rw [hmod]; omega)]
      have hlen2 : 1 + t.length ≤ qlen := by simp at hlen; omega
      have := gen_state_aux_inblock k nq qlen hk t 1 [x] st.qudits st.roots (le_refl 1) hlen2
      have hst : ({ st with qudits := st.qudits ++ [[x]] } : PyState)
          = ⟨st.qudits ++ [[x]], st.roots⟩ := rfl
      rw [hst, this]
      simp

theorem gen_state_aux_blocks (nq qlen : Nat) (hq : 0 < qlen) :
    ∀ (n k : Nat) (xs : List Nat) (st : PyState), xs.length = n * qlen → k + n ≤ nq →
      (gen_state_aux xs (k * qlen) nq qlen st).qudits.length = st.qudits.length + n ∧
      (gen_state_aux xs (k * qlen) nq qlen st).roots = st.roots := by
  intro n
  induction n with
  | zero =>
      intro k xs st hlen _
      have : xs = [] := List.length_eq_zero.mp (by simpa using hlen)
      subst this
      exact ⟨by simp [gen_state_aux], by simp [gen_state_aux]⟩
  | succ n ih =>
      intro k xs st hlen hkn
      have hq1 : qlen ≤ xs.length := by
        rw [hlen]; calc qlen = 1 * qlen := by ring
          _ ≤ (n + 1) * qlen := Nat.mul_le_mul_right qlen (by omega)
      have htake : (xs.take qlen).length = qlen := by
        rw [List.length_take]; omega
      have hdrop : (xs.drop qlen).length = n * qlen := by
        rw [List.length_drop, hlen]; ring_nf; omega
      have hsplit : xs = xs.take qlen ++ xs.drop qlen := (List.take_append_drop qlen xs).symm
      rw [hsplit, gen_state_aux_append, htake,
        gen_state_aux_block k nq qlen (by omega) hq _ st htake]
      have hidx : k * qlen + qlen = (k + 1) * qlen := by ring
      rw [hidx]
      have := ih (k + 1) (xs.drop qlen) ⟨st.qudits ++ [xs.take qlen], st.roots⟩ hdrop (by omega)
      refine ⟨?_, this.2⟩
      rw [this.1]
      simp
      omega

theorem gen_state_shape (nq qlen nr : Nat) (comb : List Nat)
    (hq : 0 < qlen) (hlen : comb.length = nq * qlen + nr) :
    (gen_state comb nq qlen).qudits.length = nq ∧
    (gen_state comb nq qlen).roots.length = nr := by
  have hsplit : comb = comb.take (nq * qlen) ++ comb.drop (nq * qlen) :=
    (List.take_append_drop (nq * qlen) comb).symm
  have htake : (comb.take (nq * qlen)).length = nq * qlen := by
    rw [List.length_take]; omega
  have hdrop : (comb.drop (nq * qlen)).length = nr := by
    rw [List.length_drop, hlen]; omega
  have h0 : (0 : Nat) * qlen = 0 := by ring
  rw [gen_state, hsplit, gen_state_aux_append]
  have hb := gen_state_aux_blocks nq qlen hq nq 0 (comb.take (nq * qlen)) ⟨[], []⟩
    (by rw [htake]) (by omega)
  rw [h0] at hb
  rw [htake]
  have hr := gen_state_aux_roots (comb.drop (nq * qlen)) (0 + nq * qlen) nq qlen
    (gen_state_aux (comb.take (nq * qlen)) 0 nq qlen ⟨[], []⟩) (by omega)
  rw [hr]
  simp only at hb ⊢
  refine ⟨by rw [hb.1]; simp, ?_⟩
  rw [hb.2]
  simpa using hdrop

theorem check_qudits_sound (L : Nat) :
    ∀ qs : List (List Nat), check_qudits L qs = true →
      ∀ q ∈ qs, q.length = L ∧ check_outcomes q = true := by
  intro qs
  induction qs with
  | nil => intro _ q hq; simp at hq
  | cons q0 rest ih =>
      intro h q hq
      rw [check_qudits] at h
      split at h
      case isTrue hlen =>
        split at h
        case isTrue hout =>
          rcases List.mem_cons.mp hq with h1 | h2
          · exact ⟨by rw [h1]; exact hlen, by rw [h1]; exact hout⟩
          · exact ih h q h2
        case isFalse => simp at h
      case isFalse => simp at h

theorem check_state_parts (s : PyState) (h : check_state s = true) :
    check_qudits (s.qudits.getD 0 []).length s.qudits = true ∧
    s.qudits.length = s.roots.length + 1 ∧
    check_roots_chain s.qudits s.roots 0 (pyLast (s.qudits.getD 0 [])) = true := by
  rw [check_state] at h
  split at h
  case isTrue => simp at h
  case isFalse h1 =>
    split at h
    case isTrue => simp at h
    case isFalse h2 =>
      refine ⟨?_, by omega, h⟩
      revert h1
      cases check_qudits (s.qudits.getD 0 []).length s.qudits <;> simp

/-!
## Operator generation (src/tqsim/lib/operator_generator.py)

Matrices are lists of row lists over K, exactly the nested Python lists the
source builds (numpy arrays are only used for 2x2 products and indexing).
The single list access in this module that can be out of range for states
produced by generate_basis is state_i["qudits"][m][-2] in gen_sigma (it
raises IndexError whenever the qudit length is 1, i.e. whenever
nb_anyons_per_qudit = 2 and the braided pair straddles a qudit boundary);
it is embedded as the Option-valued pyNeg2, and gen_sigma /
generate_braiding_operator return none exactly when the source raises.
All other accesses are in range for inputs coming from the same basis and
are embedded with getD defaults.
-/

def sumK (l : List K) : K := l.foldl (· + ·) 0

def dotK (r c : List K) : K := sumK (List.zipWith (· * ·) r c)

/-- Matrix product (numpy @ for rectangular nested lists). -/
def matmul (A B2 : List (List K)) : List (List K) :=
  A.map (fun r => B2.transpose.map (fun c => dotK r c))

/-- numpy .T.conjugate(). -/
def conjTransM (A : List (List K)) : List (List K) :=
  A.transpose.map (fun r => r.map star)

/-- numpy identity matrix np.eye(n). -/
def eyeK (n : Nat) : List (List K) :=
  (List.range n).map (fun i => (List.range n).map (fun j => if i = j then (1 : K) else 0))

/-- Matrix entry A[i, j] (all reads are in range; default 0). -/
def entryM (A : List (List K)) (i j : Nat) : K := (A.getD i []).getD j 0

def rowEqK (r c : List K) : Bool := r.length == c.length && (List.zipWith Keq r c).all id

/-- Entrywise value equality of matrices over K. -/
def matEqK (A B2 : List (List K)) : Bool :=
  A.length == B2.length && (List.zipWith rowEqK A B2).all id

/-- The F matrix (operator_generator.py lines 20-52); the unmatched branches
leave the initial zero matrix in place, as in the source. -/
def F (a1 a2 a3 outcome : Nat) : List (List K) :=
  if a1 + a2 + a3 + outcome = 4 then [[invPhi, sqrtInvPhi], [sqrtInvPhi, -invPhi]]
  else if a1 + a2 + a3 + outcome = 3 then [[0, 0], [0, 1]]
  else if a1 + a2 + a3 + outcome = 2 then
    (if a1 + a2 = 2 then [[0, 1], [0, 0]]
     else if a2 + a3 = 2 then [[0, 0], [1, 0]]
     else if a1 + a3 = 2 then [[0, 0], [0, 1]]
     else if a3 + outcome = 2 then [[0, 1], [0, 0]]
     else if a1 + outcome = 2 then [[0, 0], [1, 0]]
     else if a2 + outcome = 2 then [[0, 0], [0, 1]]
     else [[0, 0], [0, 0]])
  else if a1 + a2 + a3 + outcome = 0 then [[1, 0], [0, 0]]
  else [[0, 0], [0, 0]]

/-- The R matrix (operator_generator.py lines 55-66). -/
def R (a1 a2 : Nat) : List (List K) :=
  if a1 + a2 = 2 then [[expR1, 0], [0, expR2]] else [[1, 0], [0, 1]]

/-- The braiding matrix B = F . R . F^dagger (operator_generator.py lines 69-75). -/
def B (a0 a1 a2 outcome : Nat) : List (List K) :=
  matmul (matmul (F a0 a1 a2 outcome) (R a1 a2)) (conjTransM (F a0 a2 a1 outcome))

/-- sigma (operator_generator.py lines 78-111): the (state_f, state_i)
component of the braiding operator acting inside one qudit.  The source
raises ValueError when the index is out of range: embedded as none. -/
def sigma (index : Nat) (state_f state_i : List Nat) : Option K :=
  if index = 0 ∨ state_i.length < index then none
  else
    let stt_f := 1 :: state_f
    let stt_i := 1 :: state_i
    let a0 : Nat :=
      if index < 2 then 0
      else if index = 2 then 1
      else state_i.getD (index - 3) 0
    let outcome := state_i.getD (index - 1) 0
    let a := stt_i.getD (index - 1) 0
    let b := stt_f.getD (index - 1) 0
    let amplitude := entryM (B a0 1 1 outcome) a b
    let ket := stt_i.set (index - 1) b
    let braket : K := if ket = stt_f then 1 else 0
    some (amplitude * braket)

/-- One summand of the L component: the product over the neighbouring
qudit's labels for a fixed channel assignment p (operator_generator.py
lines 142-151 and 163-172). -/
def L_term (k h i_ i qudit_len : Nat) (jjj_ jjj : List Nat) (p : List Nat) : K :=
  let pp := p ++ [k]
  let product := (List.range qudit_len).foldl
    (fun acc ii =>
      acc *
        entryM (conjTransM (F i (jjj.getD ii 0) 1 (pp.getD (ii + 1) 0)))
          (jjj.getD (ii + 1) 0) (pp.getD ii 0) *
        entryM (F i_ (jjj_.getD ii 0) 1 (pp.getD (ii + 1) 0))
          (pp.getD ii 0) (jjj_.getD (ii + 1) 0))
    1
  product * entryM (B h 1 1 (pp.getD 0 0)) i i_

/-- The while loop of L: sum L_term over the binary counter from all zeros
to all ones inclusive (the final iteration after the loop in the source).
Fuel 2^qudit_len always reaches the all-ones counter, so the fuel-0 fallback
is unreachable. -/
def L_loop (k h i_ i qudit_len : Nat) (jjj_ jjj final : List Nat) :
    Nat → List Nat → K → K
  | 0, p, acc => acc + L_term k h i_ i qudit_len jjj_ jjj p
  | fuel + 1, p, acc =>
      if p = final then acc + L_term k h i_ i qudit_len jjj_ jjj p
      else L_loop k h i_ i qudit_len jjj_ jjj final fuel (next_comb p)
        (acc + L_term k h i_ i qudit_len jjj_ jjj p)

/-- L (operator_generator.py lines 114-174). -/
def L (k h i_ i : Nat) (jj_ jj : List Nat) : K :=
  let qudit_len := jj.length
  let jjj_ := 1 :: jj_
  let jjj := 1 :: jj
  L_loop k h i_ i qudit_len jjj_ jjj (List.replicate qudit_len 1)
    (2 ^ qudit_len) (List.replicate qudit_len 0) 0

/-- S, the sewing component (operator_generator.py lines 177-202): sum over
the intermediate channel kk in {0, 1}. -/
def S (jm jmo jmoo jmo_ h i_ i : Nat) (jj_ jj : List Nat) : K :=
  entryM (F jmoo i (pyLast jj) jm) jmo 0 * L 0 h i_ i jj_ jj *
      entryM (conjTransM (F jmoo i_ (pyLast jj_) jm)) 0 jmo_ +
    entryM (F jmoo i (pyLast jj) jm) jmo 1 * L 1 h i_ i jj_ jj *
      entryM (conjTransM (F jmoo i_ (pyLast jj_) jm)) 1 jmo_

/-- Python list[-2] on a qudit: in range only when the qudit has at least
two labels; gen_sigma reads it for every boundary braid, and the source
raises IndexError when the qudit length is 1. -/
def pyNeg2 (l : List Nat) : Option Nat :=
  if 2 ≤ l.length then some (l.getD (l.length - 2) 0) else none

/-- qudit[-1] = x (assignment to the last entry; callers pass nonempty
qudits). -/
def setLastNat (l : List Nat) (x : Nat) : List Nat := l.dropLast ++ [x]

/-- The first delta loop of gen_sigma: all qudits other than m agree. -/
def quditsMatchExcept (m : Nat) (xi xf : List (List Nat)) : Bool :=
  (List.range xi.length).all (fun i => i == m || xi.getD i [] == xf.getD i [])

/-- The second delta loop of gen_sigma: all roots agree. -/
def rootsMatch (ri rf : List Nat) : Bool :=
  (List.range ri.length).all (fun i => ri.getD i 0 == rf.getD i 0)

/-- gen_sigma (operator_generator.py lines 205-290). -/
def gen_sigma (index : Nat) (state_i state_f : PyState) : Option K :=
  let qudit_len := (state_i.qudits.getD 0 []).length
  let napq := qudit_len + 1
  if index % napq > 0 then
    let m := index / napq
    let idx := index % napq
    (sigma idx (state_f.qudits.getD m []) (state_i.qudits.getD m [])).map
      (fun amplitude =>
        let braket : K :=
          if quditsMatchExcept m state_i.qudits state_f.qudits &&
              rootsMatch state_i.roots state_f.roots then 1 else 0
        braket * amplitude)
  else
    let m := index / napq - 1
    let new_qudits :=
      (state_i.qudits.set m
        (setLastNat (state_i.qudits.getD m []) (pyLast (state_f.qudits.getD m [])))).set
        (m + 1) (state_f.qudits.getD (m + 1) [])
    (pyNeg2 (state_i.qudits.getD m [])).map (fun h =>
      let amplitude :=
        if m + 1 > 2 then
          let new_roots := state_i.roots.set (m - 1) (state_f.roots.getD (m - 1) 0)
          S (state_i.roots.getD m 0) (state_i.roots.getD (m - 1) 0)
            (state_i.roots.getD (m - 2) 0) (new_roots.getD (m - 1) 0) h
            (pyLast (new_qudits.getD m [])) (pyLast (state_i.qudits.getD m []))
            (new_qudits.getD (m + 1) []) (state_i.qudits.getD (m + 1) [])
        else if m + 1 = 2 then
          let new_roots := state_i.roots.set (m - 1) (state_f.roots.getD (m - 1) 0)
          S (state_i.roots.getD m 0) (state_i.roots.getD (m - 1) 0)
            (pyLast (state_i.qudits.getD 0 [])) (new_roots.getD (m - 1) 0) h
            (pyLast (new_qudits.getD m [])) (pyLast (state_i.qudits.getD m []))
            (new_qudits.getD (m + 1) []) (state_i.qudits.getD (m + 1) [])
        else
          S (state_i.roots.getD m 0) (pyLast (state_i.qudits.getD 0 [])) 0
            (pyLast (new_qudits.getD 0 [])) h
            (pyLast (new_qudits.getD m [])) (pyLast (state_i.qudits.getD m []))
            (new_qudits.getD (m + 1) []) (state_i.qudits.getD (m + 1) [])
      let new_roots :=
        if m + 1 > 2 ∨ m + 1 = 2 then
          state_i.roots.set (m - 1) (state_f.roots.getD (m - 1) 0)
        else state_i.roots
      let new_state_i : PyState := ⟨new_qudits, new_roots⟩
      let braket : K := if new_state_i = state_f then 1 else 0
      braket * amplitude)

/-- generate_braiding_operator (operator_generator.py lines 293-321): the
matrix indexed [final state][initial state]; none exactly when the source
raises while filling the matrix. -/
def generate_braiding_operator (index nb_qudits nb_anyons_per_qudit : Nat) :
    Option (List (List K)) :=
  let basis := generate_basis nb_qudits nb_anyons_per_qudit
  basis.mapM (fun base_f => basis.mapM (fun base_i => gen_sigma index base_i base_f))

example : generate_braiding_operator 2 2 2 = none := by decide

example : (generate_braiding_operator 1 2 2).isSome = true := by decide

example :
    matEqK
      (matmul ((generate_braiding_operator 1 1 3).getD [])
        (conjTransM ((generate_braiding_operator 1 1 3).getD [])))
      (eyeK 3) = true := by decide

example :
    matEqK
      (matmul ((generate_braiding_operator 2 1 3).getD [])
        (conjTransM ((generate_braiding_operator 2 1 3).getD [])))
      (eyeK 3) = true := by decide

/-!
## Real comparison machinery

initialize checks np.isclose(norm, 1) on the real float norm.  The exact
counterpart compares real elements of K.  A real element of K (one fixed by
star) has the form A + B*phi + s*(C + D*phi) with rational A B C D, where
phi = (sqrt 5 - 1)/2 and s = sqrt(phi) > 0; its sign is decided by nested
squaring: first for elements u + v*sqrt(5) of Q(sqrt 5), then for X + s*Y
with X Y in Q(sqrt 5), using s^2 = phi.
-/

def half : Frac := ⟨1, 2⟩

def fracSign (x : Frac) : Int := if x.num > 0 then 1 else if x.num < 0 then -1 else 0

/-- Sign of u + v * sqrt 5 (u, v unnormalized fractions with positive
denominators). -/
def sign5 (u v : Frac) : Int :=
  let su := fracSign u
  let sv := fracSign v
  if sv = 0 then su
  else if su = 0 then sv
  else if su = sv then su
  else
    let u2 := u * u
    let v2 := v * v
    let lhs := u2.num * (v2.den : Int)
    let rhs := 5 * v2.num * (u2.den : Int)
    if lhs = rhs then 0 else if lhs > rhs then su else sv

/-- Square of an element of Q(sqrt 5) in (1, sqrt 5) coordinates. -/
def sq5 (u v : Frac) : Frac × Frac := (u * u + ⟨5, 1⟩ * (v * v), u * v + u * v)

/-- Sign of X + s * Y with X = u1 + v1 sqrt 5, Y = u2 + v2 sqrt 5 and
s = sqrt((sqrt 5 - 1)/2) > 0; phi = s^2 = -1/2 + (1/2) sqrt 5. -/
def signReal (u1 v1 u2 v2 : Frac) : Int :=
  let sX := sign5 u1 v1
  let sY := sign5 u2 v2
  if sY = 0 then sX
  else if sX = 0 then sY
  else if sX = sY then sX
  else
    let X2 := sq5 u1 v1
    let Y2 := sq5 u2 v2
    let phiY2 : Frac × Frac :=
      (-half * Y2.1 + ⟨5, 1⟩ * (half * Y2.2), -half * Y2.2 + half * Y2.1)
    let sD := sign5 (X2.1 - phiY2.1) (X2.2 - phiY2.2)
    if sX = 1 then sD else -sD

/-- Sign of an element of K, defined when the element is real (fixed by
star): the cyclotomic parts must be of the form a0 + a2 (z^2 - z^3), i.e.
a1 = 0 and a3 = -a2 (in value).  a0 + a2 * phi = (a0 - a2/2) + (a2/2) sqrt 5. -/
def signK (x : K) : Option Int :=
  if Frac.beq x.u.a1 0 && Frac.beq x.u.a3 (-x.u.a2) &&
      Frac.beq x.v.a1 0 && Frac.beq x.v.a3 (-x.v.a2) then
    some (signReal (x.u.a0 - half * x.u.a2) (half * x.u.a2)
      (x.v.a0 - half * x.v.a2) (half * x.v.a2))
  else none

/-- x <= y for real elements of K (false on the unreachable non-real case). -/
def kle (x y : K) : Bool :=
  match signK (x - y) with
  | some s => s ≤ 0
  | none => false

/-- Absolute value of a real element of K. -/
def kabs (x : K) : K := if kle 0 x then x else -x

/-- np.isclose(a, b) with the numpy defaults rtol = 1e-5, atol = 1e-8:
|a - b| <= atol + rtol * |b|. -/
def np_isclose (a b : K) : Bool :=
  kle (kabs (a - b)) (Kq ⟨1, 100000000⟩ + Kq ⟨1, 100000⟩ * kabs b)

/-- np.real of a scalar: (x + conj x) / 2. -/
def reK (x : K) : K := Kq half * (x + star x)

/-- np.sum(np.real(v * v.conjugate())): the squared norm of a state vector. -/
def normSq (v : List K) : K := sumK (v.map (fun x => reK (x * star x)))

example : kle invPhi 1 = true := by decide

example : kle 1 invPhi = false := by decide

example : kle sqrtInvPhi 1 = true := by decide

example : kle (Kq ⟨78, 100⟩) sqrtInvPhi = true := by decide

example : kle sqrtInvPhi (Kq ⟨79, 100⟩) = true := by decide

example : kle (Kq ⟨-3, 2⟩) (Kq ⟨-1, 1⟩) = true := by decide

example : np_isclose (normSq [Kq ⟨1000001, 1000000⟩, 0, 0]) 1 = true := by decide

example : np_isclose (normSq [Kq ⟨11, 10⟩, 0, 0]) 1 = false := by decide

example : Keq (normSq [1, 0, 0]) 1 = true := by decide

/-!
## The circuit engine (src/tqsim/circuit.py, src/cqt_anyons/circuit.py)

Python exceptions are modelled by the sum below: plain Exception is the
class the source uses for legal-state violations (the spec's
InvalidOperation), ValueError for malformed input (the spec's ValueInvalid).
Every operation returns the circuit state at the moment the call returns or
raises, paired with the raised error if any; an in-place mutation that
happened before a raise is therefore visible in the returned state, exactly
as it is on the Python object.

Deviations forced by the embedding, each out of the core per the spec:
the pickle cache of __get_basis/__get_sigmas (external cache collaborator)
is dropped and bases/operators are always generated; the Drawer
notifications are dropped (drawing collaborator); run's np.random.choice
sampling is external randomness, so run is embedded as its guard (it reads
but never writes circuit state after the guard); isinstance checks hold by
typing (positions are Int).  np.array / np.reshape are identities on the
list representation and np.size is the length.
-/

inductive PyErr where
  | exception
  | valueError
deriving DecidableEq

/-- The state of an AnyonicCircuit object (both circuit classes carry the
same attributes). -/
structure AnyonicCircuit where
  nb_qudits : Nat
  nb_anyons_per_qudit : Nat
  nb_anyons : Nat
  nb_braids : Nat
  braids_history : List (Int × Int)
  measured : Bool
  basis : List PyState
  dim : Nat
  initial_state : List K
  sigmas : List (List (List K))
  unitary : List (List K)
deriving DecidableEq, Inhabited

/-- The AnyonicCircuit constructor (src/tqsim/circuit.py lines 56-87 with
__get_basis and __get_sigmas regenerating instead of reading the cache;
src/cqt_anyons/circuit.py lines 10-28 has no cache).  none when operator
generation raises. -/
def mkCircuit (nb_qudits nb_anyons_per_qudit : Nat) : Option AnyonicCircuit :=
  let basis := generate_basis nb_qudits nb_anyons_per_qudit
  let dim := basis.length
  let nb_anyons := nb_qudits * nb_anyons_per_qudit
  ((List.range (nb_anyons - 1)).mapM
    (fun i => generate_braiding_operator (i + 1) nb_qudits nb_anyons_per_qudit)).map
    (fun sigmas =>
      { nb_qudits := nb_qudits
        nb_anyons_per_qudit := nb_anyons_per_qudit
        nb_anyons := nb_anyons
        nb_braids := 0
        braids_history := []
        measured := false
        basis := basis
        dim := dim
        initial_state := (List.replicate dim (0 : K)).set 0 1
        sigmas := sigmas
        unitary := eyeK dim })

/-- initialize (src/tqsim/circuit.py lines 196-236); the method name is
rendered circInit here.  Exception if braids already happened, ValueError on
wrong dimension or norm not close to 1; on success stores the reshaped
input vector and changes nothing else. -/
def circInit (c : AnyonicCircuit) (input_state : List K) :
    AnyonicCircuit × Option PyErr :=
  if c.nb_braids > 0 then (c, some .exception)
  else if input_state.length ≠ c.dim then (c, some .valueError)
  else if np_isclose (normSq input_state) 1 = false then (c, some .valueError)
  else ({ c with initial_state := input_state }, none)

/-- braid (src/tqsim/circuit.py lines 238-294).  Check order: measured
(Exception); positions below 1 (ValueError); positions above nb_anyons
(ValueError); non-adjacent (Exception); then left-multiply the unitary by
sigma[n-1] if n < m, by its conjugate transpose taken at m if n > m, append
(n, m) to the history and count the braid. -/
def braid (c : AnyonicCircuit) (n m : Int) : AnyonicCircuit × Option PyErr :=
  if c.measured then (c, some .exception)
  else if m < 1 ∨ n < 1 then (c, some .valueError)
  else if m > (c.nb_anyons : Int) ∨ n > (c.nb_anyons : Int) then (c, some .valueError)
  else if (n - m).natAbs ≠ 1 then (c, some .exception)
  else if n < m then
    ({ c with
        unitary := matmul (c.sigmas.getD (n - 1).toNat []) c.unitary
        braids_history := c.braids_history ++ [(n, m)]
        nb_braids := c.nb_braids + 1 }, none)
  else
    ({ c with
        unitary := matmul (conjTransM (c.sigmas.getD (m - 1).toNat [])) c.unitary
        braids_history := c.braids_history ++ [(n, m)]
        nb_braids := c.nb_braids + 1 }, none)

/-- The inner `for _ in range(abs(power)): self.braid(n, m)` loop of
braid_sequence; stops at the first raise, keeping the state reached. -/
def braidRep (n m : Int) : Nat → AnyonicCircuit → AnyonicCircuit × Option PyErr
  | 0, c => (c, none)
  | k + 1, c =>
      match braid c n m with
      | (c2, none) => braidRep n m k c2
      | (c2, some e) => (c2, some e)

/-- braid_sequence (src/tqsim/circuit.py lines 296-345): validates each
(index, power) pair when its turn comes, then applies braid |power| times;
power 0 is skipped. -/
def braid_sequence : AnyonicCircuit → List (Int × Int) → AnyonicCircuit × Option PyErr
  | c, [] => (c, none)
  | c, (ind, power) :: rest =>
      if ind < 1 then (c, some .valueError)
      else if (c.nb_anyons : Int) ≤ ind then (c, some .valueError)
      else if power = 0 then braid_sequence c rest
      else
        let n : Int := if power > 0 then ind else ind + 1
        let m : Int := if power > 0 then ind + 1 else ind
        match braidRep n m power.natAbs c with
        | (c2, none) => braid_sequence c2 rest
        | (c2, some e) => (c2, some e)

/-- measure (src/tqsim/circuit.py lines 347-365); the method name is
rendered circMeasure (measure is taken by Mathlib): Exception when already
measured, otherwise sets the flag. -/
def circMeasure (c : AnyonicCircuit) : AnyonicCircuit × Option PyErr :=
  if c.measured then (c, some .exception) else ({ c with measured := true }, none)

/-- statevector (src/tqsim/circuit.py lines 452-461): unitary times the
stored initial state. -/
def statevector (c : AnyonicCircuit) : List K :=
  c.unitary.map (fun r => dotK r c.initial_state)

/-- run (src/tqsim/circuit.py lines 473-507): Exception when not measured;
after the guard the source samples shots indices from the statevector
probabilities (external randomness) and mutates nothing. -/
def run (c : AnyonicCircuit) (_shots : Nat) : AnyonicCircuit × Option PyErr :=
  if c.measured = false then (c, some .exception) else (c, none)

/-- Modelled from the spec: src/cqt_anyons/lib/basis_generator.py
(gen_basis) is one of this repository's files that is not present under
src/; per spec sections 2 and 4.1 the basis generator is a pure function of
(nb_qudits, nb_anyons_per_qudit) enumerating the valid fusion-tree states in
a fixed deterministic order, the same contract as tqsim's generate_basis. -/
def gen_basis (nb_qudits nb_anyons_per_qudit : Nat) : List PyState :=
  generate_basis nb_qudits nb_anyons_per_qudit

/-- braiding_generator (src/cqt_anyons/lib/get_generators.py lines 279-289);
that module is textually identical to tqsim's operator_generator (numpy
.getH() equals .T.conjugate()). -/
def braiding_generator (index nb_qudits nb_anyons_per_qudit : Nat) :
    Option (List (List K)) :=
  generate_braiding_operator index nb_qudits nb_anyons_per_qudit

/-- The cqt_anyons AnyonicCircuit constructor (src/cqt_anyons/circuit.py
lines 10-28), built on gen_basis and braiding_generator. -/
def cqt_mkCircuit (nb_qudits nb_anyons_per_qudit : Nat) : Option AnyonicCircuit :=
  let basis := gen_basis nb_qudits nb_anyons_per_qudit
  let dim := basis.length
  let nb_anyons := nb_qudits * nb_anyons_per_qudit
  ((List.range (nb_anyons - 1)).mapM
    (fun i => braiding_generator (i + 1) nb_qudits nb_anyons_per_qudit)).map
    (fun sigmas =>
      { nb_qudits := nb_qudits
        nb_anyons_per_qudit := nb_anyons_per_qudit
        nb_anyons := nb_anyons
        nb_braids := 0
        braids_history := []
        measured := false
        basis := basis
        dim := dim
        initial_state := (List.replicate dim (0 : K)).set 0 1
        sigmas := sigmas
        unitary := eyeK dim })

/-- braid of the cqt_anyons circuit (src/cqt_anyons/circuit.py lines
82-112): the adjacency Exception comes before the range ValueErrors, and the
history records (m, n) instead of (n, m). -/
def cqt_braid (c : AnyonicCircuit) (n m : Int) : AnyonicCircuit × Option PyErr :=
  if c.measured then (c, some .exception)
  else if (n - m).natAbs ≠ 1 then (c, some .exception)
  else if m < 1 ∨ n < 1 then (c, some .valueError)
  else if m > (c.nb_anyons : Int) ∨ n > (c.nb_anyons : Int) then (c, some .valueError)
  else if n < m then
    ({ c with
        unitary := matmul (c.sigmas.getD (n - 1).toNat []) c.unitary
        braids_history := c.braids_history ++ [(m, n)]
        nb_braids := c.nb_braids + 1 }, none)
  else
    ({ c with
        unitary := matmul (conjTransM (c.sigmas.getD (m - 1).toNat [])) c.unitary
        braids_history := c.braids_history ++ [(m, n)]
        nb_braids := c.nb_braids + 1 }, none)

/-- measure of the cqt_anyons circuit (src/cqt_anyons/circuit.py lines
144-147): no guard at all, it unconditionally sets the flag and returns. -/
def cqt_measure (c : AnyonicCircuit) : AnyonicCircuit × Option PyErr :=
  ({ c with measured := true }, none)

/-- run of the cqt_anyons circuit (src/cqt_anyons/circuit.py lines 210-225):
same guard as tqsim's run. -/
def cqt_run (c : AnyonicCircuit) (_shots : Nat) : AnyonicCircuit × Option PyErr :=
  if c.measured = false then (c, some .exception) else (c, none)

/-- The tqsim circuit AnyonicCircuit(1, 3) right after construction. -/
def circuit13 : AnyonicCircuit := (mkCircuit 1 3).getD default

/-- The cqt_anyons circuit AnyonicCircuit(1, 3) right after construction. -/
def cqtCircuit13 : AnyonicCircuit := (cqt_mkCircuit 1 3).getD default

example : (mkCircuit 1 3).isSome = true := by decide

example : circuit13.dim = 3 ∧ circuit13.nb_anyons = 3 ∧ circuit13.measured = false ∧
    circuit13.nb_braids = 0 := by decide

example : (cqt_mkCircuit 1 3).isSome = true := by decide

/-!
## Claim theorems
-/

/-- C1.  The claim asserts that for every configuration with nb_qudits >= 1
and nb_anyons_per_qudit >= 2 and every generator index in range,
generate_braiding_operator returns a unitary matrix.  The code instead
raises IndexError at configuration (2, 2), index 2 (in range 1..3): the
boundary branch of gen_sigma reads state_i["qudits"][m][-2] and every qudit
has a single label there.  The basis itself is nonempty (5 states), so the
failure is the crash, not emptiness. -/
theorem c1_boundary_generator_crash :
    generate_braiding_operator 2 2 2 = none ∧ (generate_basis 2 2).length = 5 := by
  decide

/-- C2.  The braid-relation claim quantifies over every pair of generator
indices of every configuration's operator set; at configuration (2, 2) the
adjacent pair (1, 2) cannot satisfy sigma_1 sigma_2 sigma_1 =
sigma_2 sigma_1 sigma_2 because generating sigma_2 raises (sigma_1 is
produced fine). -/
theorem c2_braid_relation_pair_unavailable :
    (generate_braiding_operator 1 2 2).isSome = true ∧
    generate_braiding_operator 2 2 2 = none := by
  decide

/-- C3.  generate_basis returns 3 states for (1, 3), 5 for (1, 4) and 34
for (2, 4). -/
theorem c3_basis_sizes :
    (generate_basis 1 3).length = 3 ∧ (generate_basis 1 4).length = 5 ∧
    (generate_basis 2 4).length = 34 := by
  decide

/-- C4.  Every state produced by generate_basis satisfies the BasisState
invariants: every qudit label chain passes the Fibonacci fusion check
(check_outcomes, fusing charge 1 into the running outcome starting from
charge 1), the roots list has length nb_qudits - 1, and the chain of
qudit-final outcomes through the roots passes the same rule
(check_roots_chain). -/
theorem c4_basis_state_invariants :
    ∀ (nb_qudits nb_anyons_per_qudit : Nat),
      1 ≤ nb_qudits → 2 ≤ nb_anyons_per_qudit →
      ∀ s ∈ generate_basis nb_qudits nb_anyons_per_qudit,
        (∀ qd ∈ s.qudits, check_outcomes qd = true) ∧
        s.roots.length = nb_qudits - 1 ∧
        check_roots_chain s.qudits s.roots 0 (pyLast (s.qudits.getD 0 [])) = true := by
  intro nq apq h1 h2 s hs
  obtain ⟨hck, comb, hlen, hgen⟩ := generate_basis_mem nq apq s hs
  have hshape := gen_state_shape nq (apq - 1) (nq - 1) comb (by omega) hlen
  obtain ⟨hq, _, hchain⟩ := check_state_parts s hck
  refine ⟨?_, ?_, hchain⟩
  · intro qd hqd
    exact (check_qudits_sound _ _ hq qd hqd).2
  · rw [hgen]
    exact hshape.2

theorem c4_basis_state_invariants_witness :
    (⟨[[1, 0]], []⟩ : PyState) ∈ generate_basis 1 3 ∧
    ((∀ qd ∈ (⟨[[1, 0]], []⟩ : PyState).qudits, check_outcomes qd = true) ∧
      (⟨[[1, 0]], []⟩ : PyState).roots.length = 1 - 1 ∧
      check_roots_chain (⟨[[1, 0]], []⟩ : PyState).qudits
        (⟨[[1, 0]], []⟩ : PyState).roots 0
        (pyLast ((⟨[[1, 0]], []⟩ : PyState).qudits.getD 0 [])) = true) :=
  ⟨by decide,
    c4_basis_state_invariants 1 3 (by decide) (by decide) ⟨[[1, 0]], []⟩ (by decide)⟩

/-- C5 counterexample.  braid_sequence on the fresh (1, 3) circuit with the
sequence [(1, 1), (3, 1)] raises ValueError on the second pair (index 3 is
out of range) but has already applied the first pair: the returned state
records one braid while the initial state records none, so a failed call
does partially apply. -/
theorem c5_braid_sequence_partial_application :
    (braid_sequence circuit13 [(1, 1), (3, 1)]).snd = some PyErr.valueError ∧
    (braid_sequence circuit13 [(1, 1), (3, 1)]).fst.nb_braids = 1 ∧
    circuit13.nb_braids = 0 := by
  decide

/-- C5 amended.  initialize (circInit), braid, measure (circMeasure) and run
each validate before mutating: whenever one of them raises, the returned
circuit state equals the state before the call.  braid_sequence is excluded:
it validates pair by pair and a later invalid pair leaves earlier braids
applied. -/
theorem c5_amended_single_ops_atomic :
    ∀ (c : AnyonicCircuit) (n m : Int) (v : List K) (shots : Nat),
      ((circInit c v).snd.isSome = true → (circInit c v).fst = c) ∧
      ((braid c n m).snd.isSome = true → (braid c n m).fst = c) ∧
      ((circMeasure c).snd.isSome = true → (circMeasure c).fst = c) ∧
      ((run c shots).snd.isSome = true → (run c shots).fst = c) := by
  intro c n m v shots
  refine ⟨?_, ?_, ?_, ?_⟩
  · rw [circInit]; split_ifs <;> simp
  · rw [braid]; split_ifs <;> simp
  · rw [circMeasure]; split_ifs <;> simp
  · rw [run]; split_ifs <;> simp

theorem c5_amended_single_ops_atomic_witness :
    (circInit circuit13 []).fst = circuit13 ∧
    (braid circuit13 1 3).fst = circuit13 ∧
    (circMeasure (circMeasure circuit13).fst).fst = (circMeasure circuit13).fst ∧
    (run circuit13 7).fst = circuit13 :=
  ⟨(c5_amended_single_ops_atomic circuit13 1 3 [] 7).1 (by decide),
    (c5_amended_single_ops_atomic circuit13 1 3 [] 7).2.1 (by decide),
    (c5_amended_single_ops_atomic ((circMeasure circuit13).fst) 1 3 [] 7).2.2.1 (by decide),
    (c5_amended_single_ops_atomic circuit13 1 3 [] 7).2.2.2 (by decide)⟩

/-- C7.  In the tqsim circuit a second measure raises Exception (the
InvalidOperation class) and run before measure raises Exception, as the
claim states; but the cqt_anyons circuit's measure has no guard: measuring
twice raises nothing and simply leaves the flag set, contradicting the
claim on the cited cqt_anyons code. -/
theorem c7_cqt_measure_has_no_guard :
    (circMeasure ((circMeasure circuit13).fst)).snd = some PyErr.exception ∧
    (run circuit13 1000).snd = some PyErr.exception ∧
    (cqt_measure ((cqt_measure cqtCircuit13).fst)).snd = none ∧
    ((cqt_measure cqtCircuit13).fst).measured = true := by
  decide

/-- C8 counterexample.  Braiding the non-adjacent in-range positions 1 and 3
of the fresh (1, 3) circuit raises the Exception class (the one used for
legal-state violations), not ValueError, in both circuit implementations:
the claim's "fails with ValueInvalid, distinct from InvalidOperation" is
false at this input. -/
theorem c8_nonadjacent_error_class :
    (braid circuit13 1 3).snd = some PyErr.exception ∧
    (braid circuit13 1 3).snd ≠ some PyErr.valueError ∧
    (cqt_braid cqtCircuit13 1 3).snd = some PyErr.exception := by
  decide

/-- C8 amended.  For every unmeasured circuit and integer positions n, m in
[1, nb_anyons] with |n - m| different from 1, braid raises the Exception
class (the same class the source uses for InvalidOperation situations, not
ValueError) and leaves the circuit unchanged; likewise the cqt_anyons
braid. -/
theorem c8_amended_nonadjacent_raises_exception :
    ∀ (c : AnyonicCircuit) (n m : Int),
      c.measured = false → 1 ≤ n → 1 ≤ m →
      n ≤ (c.nb_anyons : Int) → m ≤ (c.nb_anyons : Int) → (n - m).natAbs ≠ 1 →
      braid c n m = (c, some PyErr.exception) ∧
      cqt_braid c n m = (c, some PyErr.exception) := by
  intro c n m hmeas hn hm hnN hmN hadj
  constructor
  · rw [braid, if_neg (by rw [hmeas]; simp), if_neg (by omega), if_neg (by omega),
      if_pos hadj]
  · rw [cqt_braid, if_neg (by rw [hmeas]; simp), if_pos hadj]

theorem c8_amended_nonadjacent_raises_exception_witness :
    braid circuit13 1 3 = (circuit13, some PyErr.exception) ∧
    cqt_braid cqtCircuit13 1 3 = (cqtCircuit13, some PyErr.exception) :=
  ⟨(c8_amended_nonadjacent_raises_exception circuit13 1 3 (by decide) (by decide)
      (by decide) (by decide) (by decide) (by decide)).1,
    (c8_amended_nonadjacent_raises_exception cqtCircuit13 1 3 (by decide) (by decide)
      (by decide) (by decide) (by decide) (by decide)).2⟩

/-- C9 counterexample.  The vector (1 + 1e-6, 0, 0) has squared norm
(1 + 1e-6)^2, within the np.isclose tolerance of 1, so initialize accepts
it; but the stored initial_state is the input vector unrenormalized: its
squared norm differs from 1 in value.  The claim's "stores the ...
normalized vector (a ... column vector of unit norm)" is false at this
input. -/
theorem c9_initial_state_not_renormalized :
    (circInit circuit13 [Kq ⟨1000001, 1000000⟩, 0, 0]).snd = none ∧
    Keq (normSq ((circInit circuit13 [Kq ⟨1000001, 1000000⟩, 0, 0]).fst.initial_state))
      1 = false := by
  decide

/-- C9 amended.  For every circuit with braid count 0 and every vector of
the right length whose squared norm passes np.isclose(norm, 1), initialize
succeeds and stores the reshaped input vector itself (no renormalization),
changing nothing else. -/
theorem c9_amended_init_stores_vector_unchanged :
    ∀ (c : AnyonicCircuit) (v : List K),
      c.nb_braids = 0 → v.length = c.dim → np_isclose (normSq v) 1 = true →
      circInit c v = ({ c with initial_state := v }, none) := by
  intro c v h1 h2 h3
  rw [circInit, if_neg (by omega), if_neg (by omega), if_neg (by rw [h3]; simp)]

theorem c9_amended_init_stores_vector_unchanged_witness :
    circInit circuit13 [1, 0, 0] = ({ circuit13 with initial_state := [1, 0, 0] }, none) :=
  c9_amended_init_stores_vector_unchanged circuit13 [1, 0, 0] (by decide) (by decide)
    (by decide)

/-- Supporting check for the round-trip property (claim C6, not settled in
general): on the (1, 3) circuit, braid(1, 2) followed by braid(2, 1)
returns the unitary to the identity exactly. -/
theorem roundtrip_identity_13 :
    matEqK ((braid (braid circuit13 1 2).fst 2 1).fst.unitary) (eyeK 3) = true := by
  decide

/-- Supporting check: the two (1, 3) generators satisfy the Yang-Baxter
relation exactly. -/
theorem braid_relation_13 :
    matEqK
      (matmul ((generate_braiding_operator 1 1 3).getD [])
        (matmul ((generate_braiding_operator 2 1 3).getD [])
          ((generate_braiding_operator 1 1 3).getD [])))
      (matmul ((generate_braiding_operator 2 1 3).getD [])
        (matmul ((generate_braiding_operator 1 1 3).getD [])
          ((generate_braiding_operator 2 1 3).getD []))) = true := by
  decide

/-!
## Additional supporting checks

The constructor of AnyonicCircuit(2, 2) itself fails (it generates all
operators, and index 2 raises, cf. C1); and the (1, 4) generators are
unitary, matching the repository's own test battery.
-/

example : mkCircuit 2 2 = none := by decide

example :
    matEqK
      (matmul ((generate_braiding_operator 1 1 4).getD [])
        (conjTransM ((generate_braiding_operator 1 1 4).getD [])))
      (eyeK 5) = true := by decide

example :
    matEqK
      (matmul ((generate_braiding_operator 2 1 4).getD [])
        (conjTransM ((generate_braiding_operator 2 1 4).getD [])))
      (eyeK 5) = true := by decide

example :
    matEqK
      (matmul ((generate_braiding_operator 3 1 4).getD [])
        (conjTransM ((generate_braiding_operator 3 1 4).getD [])))
      (eyeK 5) = true := by decide
